import Mathlib

/-!
Verification of the in-memory user store and its HTTP handlers
(Go source: `main.go` of the web-server slice).

The Go program keeps a global `userCache : map[int]User` guarded by a
`sync.RWMutex` and exposes three handlers:

* `createUser` — decodes a JSON body into a `User`, rejects it when
  `ID == 0 || Name == "" || Age == 0`, then writes the record under the
  key `len(userCache)+1` while holding the writer lock, responds 204, and
  writes the record again under the key `user.ID` after the lock has been
  released.
* `getUser` — parses the `id` path segment with `strconv.Atoi`, reads the
  map under the reader lock, and serializes the record with
  `encoding/json` (200, 404 or 400).
* `deleteUser` — parses the path id, checks membership without any lock,
  then deletes under the writer lock (204, 404 or 400).

The store is embedded as an association list with Go-map semantics
(`insert` replaces the binding when the key is present, otherwise appends;
`erase` removes the binding; `find?` looks a key up; `size` is the number
of bindings).  Handlers are pure state-passing functions
`Store → Input → Store × Resp`.  Lock usage is embedded separately as an
access trace: each map access the handler performs is recorded together
with the lock state held at that moment, in source order.

Go `int` is modelled as `Int`; the claims touch no value anywhere near
2^63, so 64-bit wrap-around is never exercised.
-/

/-- Go struct `User`: fields `ID int`, `Name string` (json tag "name"),
`Age int`, in declaration order. -/
structure User where
  id : Int
  name : String
  age : Int
deriving DecidableEq, Repr

/-- The in-memory map `userCache : map[int]User`, embedded as an
association list of key/value bindings. -/
abbrev Store : Type := List (Int × User)

/-- Map lookup `userCache[id]`: the value bound to the key, if any. -/
def Store.find? : Store → Int → Option User
  | [], _ => none
  | (k2, v) :: rest, k => if k2 = k then some v else Store.find? rest k

/-- Map write `userCache[k] = v`: replace the binding when the key is
present, otherwise append a new binding. -/
def Store.insert : Store → Int → User → Store
  | [], k, v => [(k, v)]
  | (k2, v2) :: rest, k, v =>
    if k2 = k then (k, v) :: rest else (k2, v2) :: Store.insert rest k v

/-- Map deletion `delete(userCache, k)`: drop every binding of the key. -/
def Store.erase : Store → Int → Store
  | [], _ => []
  | (k2, v2) :: rest, k =>
    if k2 = k then Store.erase rest k else (k2, v2) :: Store.erase rest k

/-- Map size `len(userCache)`: the number of bindings. -/
def Store.size (s : Store) : Nat := s.length

/-- Digit-string value: `some n` when the character list is a non-empty
run of decimal digits, `none` otherwise. -/
def parseDigits (cs : List Char) : Option Nat :=
  if cs.isEmpty then none
  else
    cs.foldl
      (fun acc c =>
        match acc with
        | none => none
        | some n => if c.isDigit then some (n * 10 + (c.toNat - Char.toNat (Char.ofNat 48))) else none)
      (some 0)

/-- Go `strconv.Atoi`: an optional sign followed by at least one decimal
digit; anything else is a syntax error (`none`).  The int64 range check is
not modelled — every value in this development is tiny. -/
def atoi (s : String) : Option Int :=
  match s.toList with
  | [] => none
  | c :: rest =>
    if c = Char.ofNat 45 then (parseDigits rest).map (fun n => -(n : Int))
    else if c = Char.ofNat 43 then (parseDigits rest).map (fun n => (n : Int))
    else (parseDigits (c :: rest)).map (fun n => (n : Int))

/-- The error text `strconv.Atoi` puts in `err.Error()` for a syntax
error on the given input. -/
def atoiError (input : String) : String :=
  "strconv.Atoi: parsing " ++ input ++ ": invalid syntax"

/-- JSON scalar values appearing in a serialized `User`. -/
inductive JsonValue where
  | num (n : Int)
  | str (s : String)
deriving DecidableEq, Repr

/-- Go `json.Marshal` applied to a `User` value: fields in declaration
order, each under its json key — the tag when the field has one (only
`Name` carries the tag "name"), otherwise the Go field name verbatim
("ID", "Age").  Marshalling a struct of ints and a string cannot fail,
so the result is always `some`; the `Option` mirrors the `err` return
the Go caller must still branch on. -/
def marshalUser (u : User) : Option (List (String × JsonValue)) :=
  some [("ID", JsonValue.num u.id), ("name", JsonValue.str u.name), ("Age", JsonValue.num u.age)]

/-- HTTP responses the three handlers can produce, by status code:
`ok` 200 (JSON body), `noContent` 204, `badRequest` 400,
`notFound` 404, `internalError` 500. -/
inductive Resp where
  | ok (body : List (String × JsonValue))
  | noContent
  | badRequest (msg : String)
  | notFound (msg : String)
  | internalError (msg : String)
deriving DecidableEq, Repr

/-- Numeric status code of a response. -/
def Resp.status : Resp → Nat
  | .ok _ => 200
  | .noContent => 204
  | .badRequest _ => 400
  | .notFound _ => 404
  | .internalError _ => 500

/-- Handler `deleteUser`: parse the id (400 on error), check membership
(404 when absent), otherwise delete the binding and respond 204. -/
def deleteUser (s : Store) (idStr : String) : Store × Resp :=
  match atoi idStr with
  | none => (s, Resp.badRequest (atoiError idStr))
  | some id =>
    match Store.find? s id with
    | none => (s, Resp.notFound "User not found")
    | some _ => (Store.erase s id, Resp.noContent)

/-- Handler `getUser`: parse the id (400 on error), read the map (404
when absent), marshal the record (the Go code answers 500 — with the
message "User not found" — should marshalling fail, which it cannot for
this struct) and respond 200 with the JSON body. -/
def getUser (s : Store) (idStr : String) : Store × Resp :=
  match atoi idStr with
  | none => (s, Resp.badRequest (atoiError idStr))
  | some id =>
    match Store.find? s id with
    | none => (s, Resp.notFound "User not found")
    | some user =>
      match marshalUser user with
      | none => (s, Resp.internalError "User not found")
      | some j => (s, Resp.ok j)

/-- Handler `createUser`: the body either failed to decode (400 with the
decoder's message) or produced a `User`; a zero `ID`, empty `Name` or
zero `Age` is rejected with 400 before any store access; otherwise the
record is written under the key `len(userCache)+1`, the 204 header is
written, and the record is written again under the key `user.ID`. -/
def createUser (s : Store) (body : Except String User) : Store × Resp :=
  match body with
  | Except.error msg => (s, Resp.badRequest msg)
  | Except.ok user =>
    if user.id = 0 ∨ user.name = "" ∨ user.age = 0 then
      (s, Resp.badRequest "Invalid/missing required fields")
    else
      ((Store.insert (Store.insert s (Int.ofNat (Store.size s + 1)) user) user.id user),
        Resp.noContent)

/-- Lock state a goroutine holds on `CacheMutex` at a given moment:
nothing, the shared reader side (`RLock`), or the exclusive writer side
(`Lock`). -/
inductive LockState where
  | unlocked
  | reader
  | writer
deriving DecidableEq, Repr

/-- Kind of access to the shared map: a read (lookup / membership test /
`len`), a write of a binding, or a deletion of a binding. -/
inductive AccessKind where
  | read
  | write
  | erase
deriving DecidableEq, Repr

/-- One access to the shared map together with the lock state held while
it is performed. -/
structure MapAccess where
  kind : AccessKind
  lock : LockState
deriving DecidableEq, Repr

/-- The reader-writer discipline of the spec: a read needs at least the
reader lock, a write or deletion needs the writer lock. -/
def MapAccess.disciplined (a : MapAccess) : Bool :=
  match a.kind with
  | AccessKind.read => decide (a.lock ≠ LockState.unlocked)
  | AccessKind.write => decide (a.lock = LockState.writer)
  | AccessKind.erase => decide (a.lock = LockState.writer)

/-- Map accesses `deleteUser` performs, in source order, with the lock
state held at each: the membership check `userCache[id]` runs before any
lock is taken; the `delete` itself runs under the writer lock. -/
def deleteUserTrace (s : Store) (idStr : String) : List MapAccess :=
  match atoi idStr with
  | none => []
  | some id =>
    match Store.find? s id with
    | none => [⟨AccessKind.read, LockState.unlocked⟩]
    | some _ => [⟨AccessKind.read, LockState.unlocked⟩, ⟨AccessKind.erase, LockState.writer⟩]

/-- Map accesses `getUser` performs: the single lookup runs between
`RLock` and `RUnlock`. -/
def getUserTrace (_s : Store) (idStr : String) : List MapAccess :=
  match atoi idStr with
  | none => []
  | some _ => [⟨AccessKind.read, LockState.reader⟩]

/-- Map accesses `createUser` performs on a validated body: under the
writer lock it reads `len(userCache)` and writes the count-based key;
after `Unlock` it writes the key `user.ID` with no lock held. -/
def createUserTrace (_s : Store) (body : Except String User) : List MapAccess :=
  match body with
  | Except.error _ => []
  | Except.ok user =>
    if user.id = 0 ∨ user.name = "" ∨ user.age = 0 then []
    else
      [⟨AccessKind.read, LockState.writer⟩, ⟨AccessKind.write, LockState.writer⟩,
        ⟨AccessKind.write, LockState.unlocked⟩]

/-- The round-trip entity of the spec examples. -/
def alice : User := ⟨7, "Alice", 30⟩

/-- The overwriting entity of the spec examples. -/
def bob : User := ⟨7, "Bob", 40⟩

/-! ### Store lemmas -/

theorem Store.find_insert_self (s : Store) (k : Int) (v : User) :
    Store.find? (Store.insert s k v) k = some v := by
  induction s with
  | nil => simp [Store.insert, Store.find?]
  | cons p rest ih =>
    obtain ⟨k2, v2⟩ := p
    by_cases h : k2 = k
    · simp [Store.insert, h, Store.find?]
    · simp [Store.insert, h, Store.find?, ih]

theorem Store.find_insert_other (s : Store) (k k2 : Int) (v : User) (h : k2 ≠ k) :
    Store.find? (Store.insert s k v) k2 = Store.find? s k2 := by
  induction s with
  | nil => simp [Store.insert, Store.find?, Ne.symm h]
  | cons p rest ih =>
    obtain ⟨k3, v3⟩ := p
    by_cases h3 : k3 = k
    · subst h3
      simp [Store.insert, Store.find?, Ne.symm h]
    · simp [Store.insert, h3, Store.find?, ih]

theorem Store.find_erase_self (s : Store) (k : Int) :
    Store.find? (Store.erase s k) k = none := by
  induction s with
  | nil => simp [Store.erase, Store.find?]
  | cons p rest ih =>
    obtain ⟨k2, v2⟩ := p
    by_cases h : k2 = k
    · simp [Store.erase, h, ih]
    · simp [Store.erase, h, Store.find?, ih]

theorem Store.find_erase_other (s : Store) (k k2 : Int) (h : k2 ≠ k) :
    Store.find? (Store.erase s k) k2 = Store.find? s k2 := by
  induction s with
  | nil => simp [Store.erase]
  | cons p rest ih =>
    obtain ⟨k3, v3⟩ := p
    by_cases h3 : k3 = k
    · subst h3
      simp [Store.erase, Store.find?, Ne.symm h, ih]
    · simp [Store.erase, h3, Store.find?, ih]

theorem createUser_valid (s : Store) (u : User)
    (h : ¬ (u.id = 0 ∨ u.name = "" ∨ u.age = 0)) :
    createUser s (Except.ok u) =
      (Store.insert (Store.insert s (Int.ofNat (Store.size s + 1)) u) u.id u,
        Resp.noContent) := by
  simp [createUser, h]

theorem getUser_found (s : Store) (idStr : String) (id : Int) (u : User)
    (hp : atoi idStr = some id) (hf : Store.find? s id = some u) :
    getUser s idStr =
      (s, Resp.ok [("ID", JsonValue.num u.id), ("name", JsonValue.str u.name),
        ("Age", JsonValue.num u.age)]) := by
  simp [getUser, hp, hf, marshalUser]

/-! ### Claim theorems -/

/-- C1: the claim says Create performs exactly one store write, at key
`e.id` only.  The code performs a second write, under the count-based key
`len(userCache)+1`: creating `alice` (id 7) in the empty store also binds
key 1, which was unbound before and differs from 7. -/
theorem createUser_double_write :
    Store.find? ([] : Store) 1 = none ∧
    (createUser [] (Except.ok alice)).1 = [((1 : Int), alice), ((7 : Int), alice)] ∧
    Store.find? (createUser [] (Except.ok alice)).1 1 = some alice ∧
    ((1 : Int) ≠ 7) := by decide

/-- C2: from any store state, Create of `alice` = id 7, name "Alice",
age 30 followed by Get(7) reads back exactly that entity: key 7 is bound
to `alice` and the handler answers 200 with its serialization. -/
theorem create_get_roundtrip (s : Store) :
    Store.find? (createUser s (Except.ok alice)).1 7 = some alice ∧
    getUser (createUser s (Except.ok alice)).1 "7" =
      ((createUser s (Except.ok alice)).1,
        Resp.ok [("ID", JsonValue.num 7), ("name", JsonValue.str "Alice"), ("Age", JsonValue.num 30)]) := by
  have hv : ¬ (alice.id = 0 ∨ alice.name = "" ∨ alice.age = 0) := by decide
  have hf : Store.find? (createUser s (Except.ok alice)).1 7 = some alice := by
    rw [createUser_valid s alice hv]
    exact Store.find_insert_self _ 7 alice
  refine ⟨hf, ?_⟩
  have ha : atoi "7" = some (7 : Int) := by decide
  exact getUser_found _ "7" 7 alice ha hf

/-- C3: from any store state, creating `alice` then `bob` under the same
id 7 follows last-write-wins: both creates answer 204 (no uniqueness
failure) and Get(7) returns `bob` = id 7, name "Bob", age 40. -/
theorem create_overwrite_last_write_wins (s : Store) :
    (createUser s (Except.ok alice)).2 = Resp.noContent ∧
    (createUser (createUser s (Except.ok alice)).1 (Except.ok bob)).2 = Resp.noContent ∧
    Store.find? (createUser (createUser s (Except.ok alice)).1 (Except.ok bob)).1 7 = some bob ∧
    getUser (createUser (createUser s (Except.ok alice)).1 (Except.ok bob)).1 "7" =
      ((createUser (createUser s (Except.ok alice)).1 (Except.ok bob)).1,
        Resp.ok [("ID", JsonValue.num 7), ("name", JsonValue.str "Bob"), ("Age", JsonValue.num 40)]) := by
  have hva : ¬ (alice.id = 0 ∨ alice.name = "" ∨ alice.age = 0) := by decide
  have hvb : ¬ (bob.id = 0 ∨ bob.name = "" ∨ bob.age = 0) := by decide
  have hf : Store.find? (createUser (createUser s (Except.ok alice)).1 (Except.ok bob)).1 7 = some bob := by
    rw [createUser_valid _ bob hvb]
    exact Store.find_insert_self _ 7 bob
  refine ⟨?_, ?_, hf, ?_⟩
  · rw [createUser_valid s alice hva]
  · rw [createUser_valid _ bob hvb]
  · have ha : atoi "7" = some (7 : Int) := by decide
    exact getUser_found _ "7" 7 bob ha hf

/-- C4: a decoded Create body with zero id, empty name or zero age is
rejected 400 with the store untouched; a Get or Delete whose path id does
not parse is rejected 400; a Get of an id absent from the store answers
404. -/
theorem handlers_input_validation :
    (∀ (s : Store) (u : User), (u.id = 0 ∨ u.name = "" ∨ u.age = 0) →
      createUser s (Except.ok u) = (s, Resp.badRequest "Invalid/missing required fields")) ∧
    (∀ (s : Store) (idStr : String), atoi idStr = none →
      getUser s idStr = (s, Resp.badRequest (atoiError idStr))) ∧
    (∀ (s : Store) (idStr : String), atoi idStr = none →
      deleteUser s idStr = (s, Resp.badRequest (atoiError idStr))) ∧
    (∀ (s : Store) (idStr : String) (id : Int), atoi idStr = some id →
      Store.find? s id = none → getUser s idStr = (s, Resp.notFound "User not found")) := by
  refine ⟨?_, ?_, ?_, ?_⟩
  · intro s u h
    simp [createUser, h]
  · intro s idStr h
    simp [getUser, h]
  · intro s idStr h
    simp [deleteUser, h]
  · intro s idStr id hp hf
    simp [getUser, hp, hf]

/-- C4 witness: the spec's concrete instances — Create of id 0 name "X"
age 5 is 400, Get and Delete of "abc" are 400, Get of 999 on the empty
store is 404. -/
theorem handlers_input_validation_check :
    createUser [] (Except.ok ⟨0, "X", 5⟩) = ([], Resp.badRequest "Invalid/missing required fields") ∧
    getUser [] "abc" = ([], Resp.badRequest (atoiError "abc")) ∧
    deleteUser [] "abc" = ([], Resp.badRequest (atoiError "abc")) ∧
    getUser [] "999" = ([], Resp.notFound "User not found") :=
  ⟨handlers_input_validation.1 [] ⟨0, "X", 5⟩ (Or.inl rfl),
   handlers_input_validation.2.1 [] "abc" (by decide),
   handlers_input_validation.2.2.1 [] "abc" (by decide),
   handlers_input_validation.2.2.2 [] "999" 999 (by decide) rfl⟩

/-- C6: Get never mutates the store, whatever the input string and store
state — every branch of the handler returns the store it was given. -/
theorem getUser_preserves_store (s : Store) (idStr : String) :
    (getUser s idStr).1 = s := by
  rcases ha : atoi idStr with _ | id
  · simp [getUser, ha]
  · rcases hf : Store.find? s id with _ | u
    · simp [getUser, ha, hf]
    · simp [getUser, ha, hf, marshalUser]

/-- C5: deleting an id bound in the store answers 204 and removes the
binding; a second delete of the same id answers 404 and leaves the store
as it was; neither call crashes (both are total functions). -/
theorem delete_twice_success_then_notFound (s : Store) (idStr : String) (id : Int) (u : User)
    (hp : atoi idStr = some id) (hf : Store.find? s id = some u) :
    deleteUser s idStr = (Store.erase s id, Resp.noContent) ∧
    Store.find? (Store.erase s id) id = none ∧
    deleteUser (Store.erase s id) idStr =
      (Store.erase s id, Resp.notFound "User not found") := by
  refine ⟨?_, Store.find_erase_self s id, ?_⟩
  · simp [deleteUser, hp, hf]
  · simp [deleteUser, hp, Store.find_erase_self]

/-- C5 witness: delete id 7 twice on the store holding only `alice`
under key 7. -/
theorem delete_twice_check :
    deleteUser [((7 : Int), alice)] "7" =
      (Store.erase [((7 : Int), alice)] 7, Resp.noContent) ∧
    Store.find? (Store.erase [((7 : Int), alice)] 7) 7 = none ∧
    deleteUser (Store.erase [((7 : Int), alice)] 7) "7" =
      (Store.erase [((7 : Int), alice)] 7, Resp.notFound "User not found") :=
  delete_twice_success_then_notFound [((7 : Int), alice)] "7" 7 alice (by decide) (by decide)

/-- C7: the claim says every map access is covered by the right side of
the reader-writer lock.  Two accesses are not: `deleteUser` performs its
membership read before taking any lock, and `createUser` performs its
second write — the one under the key `user.ID` — after releasing the
writer lock.  Both traces therefore contain an undisciplined access. -/
theorem map_access_lock_violations :
    (⟨AccessKind.read, LockState.unlocked⟩ : MapAccess) ∈
      deleteUserTrace [((7 : Int), alice)] "7" ∧
    MapAccess.disciplined ⟨AccessKind.read, LockState.unlocked⟩ = false ∧
    (⟨AccessKind.write, LockState.unlocked⟩ : MapAccess) ∈
      createUserTrace [] (Except.ok alice) ∧
    MapAccess.disciplined ⟨AccessKind.write, LockState.unlocked⟩ = false ∧
    (deleteUserTrace [((7 : Int), alice)] "7").all MapAccess.disciplined = false ∧
    (createUserTrace [] (Except.ok alice)).all MapAccess.disciplined = false := by decide

/-- C8 counterexample: the claim says the 200 body of a successful Get
carries exactly the keys "id", "name" and "age"; the marshalled body of
`alice` carries the keys "ID", "name" and "Age" instead (only the `Name`
field has a json tag, the other two keep the Go field name). -/
theorem getUser_keys_not_lowercase :
    (getUser [((7 : Int), alice)] "7").2 =
      Resp.ok [("ID", JsonValue.num 7), ("name", JsonValue.str "Alice"),
        ("Age", JsonValue.num 30)] ∧
    (marshalUser alice).map (fun body => body.map Prod.fst) = some ["ID", "name", "Age"] ∧
    (["ID", "name", "Age"] : List String) ≠ ["id", "name", "age"] := by decide

/-- C8 amended: a successful Get answers status 200 with a JSON body
whose keys are exactly "ID", "name" and "Age" — in that order — carrying
the stored entity's field values. -/
theorem getUser_response_keys (s : Store) (idStr : String) (id : Int) (u : User)
    (hp : atoi idStr = some id) (hf : Store.find? s id = some u) :
    getUser s idStr =
      (s, Resp.ok [("ID", JsonValue.num u.id), ("name", JsonValue.str u.name),
        ("Age", JsonValue.num u.age)]) ∧
    Resp.status (Resp.ok [("ID", JsonValue.num u.id), ("name", JsonValue.str u.name),
      ("Age", JsonValue.num u.age)]) = 200 :=
  ⟨getUser_found s idStr id u hp hf, rfl⟩

/-- C8 witness: Get of id 7 on the store holding `alice` under key 7. -/
theorem getUser_response_keys_check :
    getUser [((7 : Int), alice)] "7" =
      ([((7 : Int), alice)],
        Resp.ok [("ID", JsonValue.num alice.id), ("name", JsonValue.str alice.name),
          ("Age", JsonValue.num alice.age)]) ∧
    Resp.status (Resp.ok [("ID", JsonValue.num alice.id), ("name", JsonValue.str alice.name),
      ("Age", JsonValue.num alice.age)]) = 200 :=
  getUser_response_keys [((7 : Int), alice)] "7" 7 alice (by decide) (by decide)

/-- C9: validation rejects exactly the values id 0, empty name and age 0,
so a negative id with non-empty name and non-zero age passes: the create
answers 204, the entity is bound under its negative id, and a Get of that
id returns it. -/
theorem create_accepts_negative_values (s : Store) (u : User) (idStr : String)
    (hid : u.id < 0) (hname : u.name ≠ "") (hage : u.age ≠ 0)
    (hp : atoi idStr = some u.id) :
    (createUser s (Except.ok u)).2 = Resp.noContent ∧
    Store.find? (createUser s (Except.ok u)).1 u.id = some u ∧
    getUser (createUser s (Except.ok u)).1 idStr =
      ((createUser s (Except.ok u)).1,
        Resp.ok [("ID", JsonValue.num u.id), ("name", JsonValue.str u.name),
          ("Age", JsonValue.num u.age)]) ∧
    (∀ (s2 : Store) (v : User),
      (createUser s2 (Except.ok v)).2 = Resp.badRequest "Invalid/missing required fields" ↔
        (v.id = 0 ∨ v.name = "" ∨ v.age = 0)) := by
  have hv : ¬ (u.id = 0 ∨ u.name = "" ∨ u.age = 0) := by
    push_neg
    exact ⟨by omega, hname, hage⟩
  have hf : Store.find? (createUser s (Except.ok u)).1 u.id = some u := by
    rw [createUser_valid s u hv]
    exact Store.find_insert_self _ u.id u
  refine ⟨?_, hf, getUser_found _ idStr u.id u hp hf, ?_⟩
  · rw [createUser_valid s u hv]
  · intro s2 v
    by_cases hc : v.id = 0 ∨ v.name = "" ∨ v.age = 0
    · simp [createUser, hc]
    · simp [createUser, hc]

/-- A well-formed entity with a negative id and a negative age. -/
def negUser : User := ⟨-5, "Neg", -2⟩

/-- C9 witness: create of `negUser` = id -5, name "Neg", age -2 on the
empty store, read back through Get of "-5". -/
theorem create_accepts_negative_values_check :
    (createUser [] (Except.ok negUser)).2 = Resp.noContent ∧
    Store.find? (createUser [] (Except.ok negUser)).1 negUser.id = some negUser ∧
    getUser (createUser [] (Except.ok negUser)).1 "-5" =
      ((createUser [] (Except.ok negUser)).1,
        Resp.ok [("ID", JsonValue.num negUser.id), ("name", JsonValue.str negUser.name),
          ("Age", JsonValue.num negUser.age)]) :=
  ⟨(create_accepts_negative_values [] negUser "-5" (by decide) (by decide) (by decide)
      (by decide)).1,
    (create_accepts_negative_values [] negUser "-5" (by decide) (by decide) (by decide)
      (by decide)).2.1,
    (create_accepts_negative_values [] negUser "-5" (by decide) (by decide) (by decide)
      (by decide)).2.2.1⟩

/-- C10: from the empty store, creating an entity whose id is not 1 and
then deleting that id answers 204 yet leaves the store non-empty: the
copy written under the count-based key 1 survives, and Get(1) still
returns the entity. -/
theorem delete_leaves_count_key_entry (e : User) (idStr : String)
    (h0 : e.id ≠ 0) (hn : e.name ≠ "") (ha : e.age ≠ 0) (h1 : e.id ≠ 1)
    (hp : atoi idStr = some e.id) :
    (deleteUser (createUser [] (Except.ok e)).1 idStr).2 = Resp.noContent ∧
    (deleteUser (createUser [] (Except.ok e)).1 idStr).1 ≠ ([] : Store) ∧
    Store.find? (deleteUser (createUser [] (Except.ok e)).1 idStr).1 1 = some e ∧
    getUser (deleteUser (createUser [] (Except.ok e)).1 idStr).1 "1" =
      ((deleteUser (createUser [] (Except.ok e)).1 idStr).1,
        Resp.ok [("ID", JsonValue.num e.id), ("name", JsonValue.str e.name),
          ("Age", JsonValue.num e.age)]) := by
  have hv : ¬ (e.id = 0 ∨ e.name = "" ∨ e.age = 0) := by
    push_neg
    exact ⟨h0, hn, ha⟩
  have hs1 : (createUser [] (Except.ok e)).1 = [((1 : Int), e), (e.id, e)] := by
    rw [createUser_valid [] e hv]
    simp [Store.insert, Store.size, Ne.symm h1]
  have hfind : Store.find? [((1 : Int), e), (e.id, e)] e.id = some e := by
    simp [Store.find?, Ne.symm h1]
  have her : Store.erase [((1 : Int), e), (e.id, e)] e.id = [((1 : Int), e)] := by
    simp [Store.erase, Ne.symm h1]
  have hdel : deleteUser (createUser [] (Except.ok e)).1 idStr =
      ([((1 : Int), e)], Resp.noContent) := by
    rw [hs1]
    simp [deleteUser, hp, hfind, her]
  have hone : Store.find? [((1 : Int), e)] 1 = some e := by
    simp [Store.find?]
  refine ⟨?_, ?_, ?_, ?_⟩
  · rw [hdel]
  · rw [hdel]
    simp
  · rw [hdel]
    exact hone
  · rw [hdel]
    exact getUser_found _ "1" 1 e (by decide) hone

/-- C10 witness: create `bob` (id 7) on the empty store, delete id 7,
and read the surviving copy back through Get of "1". -/
theorem delete_leaves_count_key_entry_check :
    (deleteUser (createUser [] (Except.ok bob)).1 "7").2 = Resp.noContent ∧
    (deleteUser (createUser [] (Except.ok bob)).1 "7").1 ≠ ([] : Store) ∧
    Store.find? (deleteUser (createUser [] (Except.ok bob)).1 "7").1 1 = some bob ∧
    getUser (deleteUser (createUser [] (Except.ok bob)).1 "7").1 "1" =
      ((deleteUser (createUser [] (Except.ok bob)).1 "7").1,
        Resp.ok [("ID", JsonValue.num bob.id), ("name", JsonValue.str bob.name),
          ("Age", JsonValue.num bob.age)]) :=
  delete_leaves_count_key_entry bob "7" (by decide) (by decide) (by decide) (by decide)
    (by decide)
